import Mathlib

/-!
Verification of the Polymarket Solidity Scanner core (src/app.py).

The core consists of the depth sampler `get_order_book_depth`, the scorer
`calculate_solidity_score`, the ranking assembly (row construction, the
`sort_values` descending sort, and the three summary metrics), and the
depth-curve generator. Machine numbers are modelled as exact rationals;
Python `round(x, n)` is modelled as rounding the scaled value to the
nearest integer (`roundTo`). Random draws are modelled as explicit
parameters: every function receives the values the ambient random
generator would have produced.
-/

namespace SolidityScanner

/-- Python `round(x, n)` on exact values: round `x` to `n` decimal places. -/
def roundTo (n : ℕ) (x : ℚ) : ℚ :=
  ((round (x * 10 ^ n) : ℤ) : ℚ) / 10 ^ n

/-- Source line 61: `l_score = min(liquidity / 100, 100)`. -/
def l_score (liquidity : ℚ) : ℚ := min (liquidity / 100) 100

/-- Source line 62: `s_score = max(0, 100 - (spread * 2000))`. -/
def s_score (spread : ℚ) : ℚ := max 0 (100 - spread * 2000)

/-- Source line 63: `v_score = max(0, 100 - (volatility * 500))`. -/
def v_score (volatility : ℚ) : ℚ := max 0 (100 - volatility * 500)

/-- Source lines 55-66, `calculate_solidity_score`:
`total = (l_score * 0.5) + (s_score * 0.3) + (v_score * 0.2)`,
returned as `round(total, 1)`. -/
def calculate_solidity_score (liquidity spread volatility : ℚ) : ℚ :=
  roundTo 1 (l_score liquidity * 0.5 + s_score spread * 0.3 + v_score volatility * 0.2)

/-- The scoring formula as the specification states it, written out from the
spec text: `l_score = min(liquidity_score / 100, 100)`,
`s_score = max(0, 100 - spread * 2000)`, `v_score = max(0, 100 - volatility * 500)`,
`total = l_score*0.5 + s_score*0.3 + v_score*0.2` rounded to 1 decimal place. -/
def score_spec (liquidity_score spread volatility : ℚ) : ℚ :=
  roundTo 1 (min (liquidity_score / 100) 100 * 0.5
    + max 0 (100 - spread * 2000) * 0.3
    + max 0 (100 - volatility * 500) * 0.2)

/-! ### Basic facts about rounding and the three component scores -/

theorem roundTo_mono (n : ℕ) {x y : ℚ} (h : x ≤ y) : roundTo n x ≤ roundTo n y := by
  unfold roundTo
  have hpow : (0 : ℚ) < 10 ^ n := by positivity
  have hxy : x * 10 ^ n ≤ y * 10 ^ n :=
    mul_le_mul_of_nonneg_right h (le_of_lt hpow)
  have hfloor : round (x * 10 ^ n) ≤ round (y * 10 ^ n) := by
    rw [round_eq, round_eq]
    exact Int.floor_le_floor (by linarith)
  have hc : ((round (x * 10 ^ n) : ℤ) : ℚ) ≤ ((round (y * 10 ^ n) : ℤ) : ℚ) := by
    exact_mod_cast hfloor
  exact (div_le_div_iff_of_pos_right hpow).mpr hc

theorem l_score_nonneg {l : ℚ} (h : 0 ≤ l) : 0 ≤ l_score l :=
  le_min (by positivity) (by norm_num)

theorem l_score_le_100 (l : ℚ) : l_score l ≤ 100 := min_le_right _ _

theorem l_score_le_div (l : ℚ) : l_score l ≤ l / 100 := min_le_left _ _

theorem s_score_nonneg (s : ℚ) : 0 ≤ s_score s := le_max_left _ _

theorem s_score_le_100 {s : ℚ} (h : 0 ≤ s) : s_score s ≤ 100 :=
  max_le (by norm_num) (by linarith)

theorem s_score_eq {s : ℚ} (h : s ≤ 0.05) : s_score s = 100 - s * 2000 :=
  max_eq_right (by norm_num at h ⊢; linarith)

theorem v_score_nonneg (v : ℚ) : 0 ≤ v_score v := le_max_left _ _

theorem v_score_le_100 {v : ℚ} (h : 0 ≤ v) : v_score v ≤ 100 :=
  max_le (by norm_num) (by linarith)

theorem v_score_eq {v : ℚ} (h : v ≤ 0.2) : v_score v = 100 - v * 500 :=
  max_eq_right (by norm_num at h ⊢; linarith)

/-- C1: the scorer computes exactly the formula the spec states:
`l_score = min(liquidity_score/100, 100)`, `s_score = max(0, 100 - spread*2000)`,
`v_score = max(0, 100 - volatility*500)`, and the result is
`l_score*0.5 + s_score*0.3 + v_score*0.2` rounded to 1 decimal place,
for every input triple. -/
theorem calculate_solidity_score_eq_spec (liquidity spread volatility : ℚ) :
    calculate_solidity_score liquidity spread volatility
      = score_spec liquidity spread volatility := rfl

/-- C6: at the exact boundary inputs, spread `0.05` yields `s_score = 0` exactly,
volatility `0.1` yields `v_score = 50` (not 0), and hence
`score(l, 0.05, 0.1) = round(min(l/100,100)*0.5 + 10, 1)` for every `l`. -/
theorem boundary_spread_volatility (l : ℚ) :
    s_score 0.05 = 0 ∧ v_score 0.1 = 50 ∧
      calculate_solidity_score l 0.05 0.1 = roundTo 1 (min (l / 100) 100 * 0.5 + 10) := by
  refine ⟨by norm_num [s_score], by norm_num [v_score], ?_⟩
  have h : l_score l * 0.5 + s_score 0.05 * 0.3 + v_score 0.1 * 0.2
      = min (l / 100) 100 * 0.5 + 10 := by
    norm_num [l_score, s_score, v_score]
  rw [calculate_solidity_score, h]

/-- C8: the scorer is deterministic — identical inputs always yield an
identical score (the embedding is a pure function of its three arguments). -/
theorem calculate_solidity_score_deterministic
    (l s v l₂ s₂ v₂ : ℚ) (hl : l = l₂) (hs : s = s₂) (hv : v = v₂) :
    calculate_solidity_score l s v = calculate_solidity_score l₂ s₂ v₂ := by
  rw [hl, hs, hv]

/-- Witness for C8 at a concrete input triple. -/
theorem calculate_solidity_score_deterministic_witness :
    calculate_solidity_score 550 0.001 0.01 = calculate_solidity_score 550 0.001 0.01 :=
  calculate_solidity_score_deterministic 550 0.001 0.01 550 0.001 0.01 rfl rfl rfl

/-! ### Monotonicity of the component scores -/

theorem l_score_mono {a b : ℚ} (h : a ≤ b) : l_score a ≤ l_score b :=
  min_le_min (by linarith) le_rfl

theorem s_score_anti {a b : ℚ} (h : a ≤ b) : s_score b ≤ s_score a :=
  max_le_max le_rfl (by linarith)

theorem v_score_anti {a b : ℚ} (h : a ≤ b) : v_score b ≤ v_score a :=
  max_le_max le_rfl (by linarith)

/-- C5: holding the other two inputs fixed, the score is non-decreasing in
liquidity, non-increasing in spread, and non-increasing in volatility,
for all non-negative inputs. -/
theorem calculate_solidity_score_monotone (l l₂ s s₂ v v₂ : ℚ)
    (hl0 : 0 ≤ l) (hs0 : 0 ≤ s) (hv0 : 0 ≤ v)
    (hl : l ≤ l₂) (hs : s ≤ s₂) (hv : v ≤ v₂) :
    calculate_solidity_score l s v ≤ calculate_solidity_score l₂ s v
      ∧ calculate_solidity_score l s₂ v ≤ calculate_solidity_score l s v
      ∧ calculate_solidity_score l s v₂ ≤ calculate_solidity_score l s v := by
  refine ⟨roundTo_mono 1 ?_, roundTo_mono 1 ?_, roundTo_mono 1 ?_⟩
  · have := l_score_mono hl
    linarith
  · have := s_score_anti hs
    linarith
  · have := v_score_anti hv
    linarith

/-- Witness for C5 at the concrete inputs (1, 0, 0) against (2, 0.01, 0.02). -/
theorem calculate_solidity_score_monotone_witness :
    (0 : ℚ) ≤ 1 ∧ (1 : ℚ) ≤ 2 ∧
      (calculate_solidity_score 1 0 0 ≤ calculate_solidity_score 2 0 0
        ∧ calculate_solidity_score 1 0.01 0 ≤ calculate_solidity_score 1 0 0
        ∧ calculate_solidity_score 1 0 0.02 ≤ calculate_solidity_score 1 0 0) :=
  ⟨by norm_num, by norm_num,
    calculate_solidity_score_monotone 1 2 0 0.01 0 0.02
      (by norm_num) (by norm_num) (by norm_num)
      (by norm_num) (by norm_num) (by norm_num)⟩

/-! ### The spec's worked example (claim C4) -/

/-- Counterexample to C4's worked example: `score(550, 0.001, 0.01)` is not
`51.7`. With spread `0.001`, `s_score = 100 - 0.001*2000 = 98`, not the
spec's `99.8`, so the total is far below the claimed `51.69`. -/
theorem score_example_ne_51_7 :
    calculate_solidity_score 550 0.001 0.01 ≠ 51.7 := by
  norm_num [calculate_solidity_score, l_score, s_score, v_score, min_def, max_def,
    roundTo, round_eq]

/-- C4 (amended): for all `l ∈ [0, 2000]` and `s, v ≥ 0` with `s ≤ 0.05`,
`v ≤ 0.1`, the score lies in `[0, 100]`; and at `(550, 0.001, 0.01)` the
components are `l_score = 5.5`, `s_score = 98` (not the spec's `99.8`) and
`v_score = 95`, so the returned score is not `51.7`. -/
theorem score_range_and_corrected_example (l s v : ℚ)
    (hl0 : 0 ≤ l) (hl : l ≤ 2000) (hs0 : 0 ≤ s) (hs : s ≤ 0.05)
    (hv0 : 0 ≤ v) (hv : v ≤ 0.1) :
    (0 ≤ calculate_solidity_score l s v ∧ calculate_solidity_score l s v ≤ 100)
      ∧ (l_score 550 = 5.5 ∧ s_score 0.001 = 98 ∧ v_score 0.01 = 95)
      ∧ calculate_solidity_score 550 0.001 0.01 ≠ 51.7 := by
  refine ⟨⟨?_, ?_⟩,
    ⟨by norm_num [l_score, min_def], by norm_num [s_score, max_def],
      by norm_num [v_score, max_def]⟩,
    by norm_num [calculate_solidity_score, l_score, s_score, v_score, min_def, max_def,
      roundTo, round_eq]⟩
  · have h1 := l_score_nonneg hl0
    have h2 := s_score_nonneg s
    have h3 := v_score_nonneg v
    have h0 : roundTo 1 0 = 0 := by norm_num [roundTo, round_eq]
    calc (0 : ℚ) = roundTo 1 0 := h0.symm
      _ ≤ _ := roundTo_mono 1 (by linarith)
  · have h1 := l_score_le_div l
    have h2 := s_score_le_100 hs0
    have h3 := v_score_le_100 hv0
    have h60 : roundTo 1 60 = 60 := by norm_num [roundTo, round_eq]
    calc calculate_solidity_score l s v
        ≤ roundTo 1 60 := roundTo_mono 1 (by linarith)
      _ = 60 := h60
      _ ≤ 100 := by norm_num

/-- Witness for C4 (amended) at `(550, 0.001, 0.01)`. -/
theorem score_range_and_corrected_example_witness :
    (0 : ℚ) ≤ 550 ∧ (550 : ℚ) ≤ 2000 ∧
      ((0 ≤ calculate_solidity_score 550 0.001 0.01
          ∧ calculate_solidity_score 550 0.001 0.01 ≤ 100)
        ∧ (l_score 550 = 5.5 ∧ s_score 0.001 = 98 ∧ v_score 0.01 = 95)
        ∧ calculate_solidity_score 550 0.001 0.01 ≠ 51.7) :=
  ⟨by norm_num, by norm_num,
    score_range_and_corrected_example 550 0.001 0.01
      (by norm_num) (by norm_num) (by norm_num)
      (by norm_num) (by norm_num) (by norm_num)⟩

/-! ### Score range over the sampler's actual output envelope (claim C10) -/

/-- C10: for every triple the sampler can produce — liquidity in
`[100, 1000]`, spread in `[0.001, 0.05]`, volatility in `[0.01, 0.1]` — the
liquidity cap is inactive (`l_score = liquidity/100 ≤ 10`) and the score
lies in `[10.5, 53.4]`, far below the display column's bound of 100. -/
theorem pipeline_score_range (l s v : ℚ)
    (hl1 : 100 ≤ l) (hl2 : l ≤ 1000)
    (hs1 : 0.001 ≤ s) (hs2 : s ≤ 0.05)
    (hv1 : 0.01 ≤ v) (hv2 : v ≤ 0.1) :
    l_score l = l / 100 ∧ l_score l ≤ 10
      ∧ 10.5 ≤ calculate_solidity_score l s v
      ∧ calculate_solidity_score l s v ≤ 53.4 := by
  have hcap : l_score l = l / 100 := min_eq_left (by linarith)
  have hle10 : l_score l ≤ 10 := by rw [hcap]; linarith
  have hge1 : (1 : ℚ) ≤ l_score l := by rw [hcap]; linarith
  have hseq : s_score s = 100 - s * 2000 := s_score_eq hs2
  have hveq : v_score v = 100 - v * 500 :=
    v_score_eq (le_trans hv2 (by norm_num))
  refine ⟨hcap, hle10, ?_, ?_⟩
  · have hlow : roundTo 1 10.5 = 10.5 := by norm_num [roundTo, round_eq]
    calc (10.5 : ℚ) = roundTo 1 10.5 := hlow.symm
      _ ≤ _ := roundTo_mono 1 (by rw [hseq, hveq] at *; linarith [s_score_nonneg s])
  · have hhigh : roundTo 1 53.4 = 53.4 := by norm_num [roundTo, round_eq]
    calc calculate_solidity_score l s v
        ≤ roundTo 1 53.4 := roundTo_mono 1 (by rw [hseq, hveq] at *; linarith)
      _ = 53.4 := hhigh

/-- Witness for C10 at `(550, 0.001, 0.01)` shifted to a distinct sampler
point `(200, 0.01, 0.05)`. -/
theorem pipeline_score_range_witness :
    (100 : ℚ) ≤ 200 ∧ (200 : ℚ) ≤ 1000 ∧
      (l_score 200 = 200 / 100 ∧ l_score 200 ≤ 10
        ∧ 10.5 ≤ calculate_solidity_score 200 0.01 0.05
        ∧ calculate_solidity_score 200 0.01 0.05 ≤ 53.4) :=
  ⟨by norm_num, by norm_num,
    pipeline_score_range 200 0.01 0.05
      (by norm_num) (by norm_num) (by norm_num)
      (by norm_num) (by norm_num) (by norm_num)⟩

/-! ### The depth sampler (src/app.py lines 37-53) -/

/-- The record returned by `get_order_book_depth`. -/
structure DepthMetrics where
  liquidity_score : ℚ
  spread : ℚ
  volatility : ℚ
deriving DecidableEq

/-- Source lines 37-53, `get_order_book_depth`. The random draws are
explicit parameters: `bids_volume` and `asks_volume` stand for
`random.randint(50000, 500000)`, `spread_draw` for
`random.uniform(0.001, 0.05)` and `vol_draw` for `random.uniform(0.01, 0.1)`.
The market identifier is accepted but unused, exactly as in the source. -/
def get_order_book_depth (market_id : ℕ) (bids_volume asks_volume : ℕ)
    (spread_draw vol_draw : ℚ) : DepthMetrics :=
  { liquidity_score := ((bids_volume : ℚ) + (asks_volume : ℚ)) / 1000
    spread := roundTo 4 spread_draw
    volatility := vol_draw }

/-- C7: for draws inside the generator's ranges, the sampler's output has
liquidity in `[100, 1000]`, spread equal to the draw rounded to 4 decimal
places and lying in `[0.001, 0.05]`, volatility returned unchanged in
`[0.01, 0.1]`; and the output never depends on the market identifier. -/
theorem get_order_book_depth_spec (market_id : ℕ) (b a : ℕ) (sd vd : ℚ)
    (hb1 : 50000 ≤ b) (hb2 : b ≤ 500000) (ha1 : 50000 ≤ a) (ha2 : a ≤ 500000)
    (hs1 : 0.001 ≤ sd) (hs2 : sd ≤ 0.05) (hv1 : 0.01 ≤ vd) (hv2 : vd ≤ 0.1) :
    (100 ≤ (get_order_book_depth market_id b a sd vd).liquidity_score
        ∧ (get_order_book_depth market_id b a sd vd).liquidity_score ≤ 1000)
      ∧ (get_order_book_depth market_id b a sd vd).spread = roundTo 4 sd
      ∧ (0.001 ≤ (get_order_book_depth market_id b a sd vd).spread
        ∧ (get_order_book_depth market_id b a sd vd).spread ≤ 0.05)
      ∧ (get_order_book_depth market_id b a sd vd).volatility = vd
      ∧ (0.01 ≤ (get_order_book_depth market_id b a sd vd).volatility
        ∧ (get_order_book_depth market_id b a sd vd).volatility ≤ 0.1)
      ∧ ∀ other_id : ℕ,
          get_order_book_depth other_id b a sd vd
            = get_order_book_depth market_id b a sd vd := by
  have hbq1 : (50000 : ℚ) ≤ (b : ℚ) := by exact_mod_cast hb1
  have hbq2 : (b : ℚ) ≤ 500000 := by exact_mod_cast hb2
  have haq1 : (50000 : ℚ) ≤ (a : ℚ) := by exact_mod_cast ha1
  have haq2 : (a : ℚ) ≤ 500000 := by exact_mod_cast ha2
  refine ⟨⟨?_, ?_⟩, rfl, ⟨?_, ?_⟩, rfl, ⟨hv1, hv2⟩, fun _ => rfl⟩
  · show (100 : ℚ) ≤ ((b : ℚ) + (a : ℚ)) / 1000
    linarith
  · show ((b : ℚ) + (a : ℚ)) / 1000 ≤ 1000
    linarith
  · show (0.001 : ℚ) ≤ roundTo 4 sd
    have h1 : roundTo 4 0.001 = 0.001 := by norm_num [roundTo, round_eq]
    calc (0.001 : ℚ) = roundTo 4 0.001 := h1.symm
      _ ≤ roundTo 4 sd := roundTo_mono 4 hs1
  · show roundTo 4 sd ≤ (0.05 : ℚ)
    have h2 : roundTo 4 0.05 = 0.05 := by norm_num [roundTo, round_eq]
    calc roundTo 4 sd ≤ roundTo 4 0.05 := roundTo_mono 4 hs2
      _ = 0.05 := h2

/-- Witness for C7 at market id 1 and draws (60000, 70000, 0.01, 0.05). -/
theorem get_order_book_depth_spec_witness :
    (50000 ≤ 60000 ∧ (0.001 : ℚ) ≤ 0.01) ∧
      ((100 ≤ (get_order_book_depth 1 60000 70000 0.01 0.05).liquidity_score
          ∧ (get_order_book_depth 1 60000 70000 0.01 0.05).liquidity_score ≤ 1000)
        ∧ (get_order_book_depth 1 60000 70000 0.01 0.05).spread = roundTo 4 0.01
        ∧ (0.001 ≤ (get_order_book_depth 1 60000 70000 0.01 0.05).spread
          ∧ (get_order_book_depth 1 60000 70000 0.01 0.05).spread ≤ 0.05)
        ∧ (get_order_book_depth 1 60000 70000 0.01 0.05).volatility = 0.05
        ∧ (0.01 ≤ (get_order_book_depth 1 60000 70000 0.01 0.05).volatility
          ∧ (get_order_book_depth 1 60000 70000 0.01 0.05).volatility ≤ 0.1)
        ∧ ∀ other_id : ℕ,
            get_order_book_depth other_id 60000 70000 0.01 0.05
              = get_order_book_depth 1 60000 70000 0.01 0.05) :=
  ⟨⟨by norm_num, by norm_num⟩,
    get_order_book_depth_spec 1 60000 70000 0.01 0.05
      (by norm_num) (by norm_num) (by norm_num) (by norm_num)
      (by norm_num) (by norm_num) (by norm_num) (by norm_num)⟩

/-! ### The depth-curve generator (src/app.py lines 132-135) -/

/-- Source line 132: `prices = list(range(1, 100))`. -/
def prices : List ℕ := List.range' 1 99

/-- Source line 134: `bids = [random.randint(100, 1000) * (100-p) for p in prices]`,
with the per-price draw made explicit as `draw p`. -/
def bids (draw : ℕ → ℕ) : List ℕ := prices.map (fun p => draw p * (100 - p))

/-- Source line 135: `asks = [random.randint(100, 1000) * p for p in prices]`,
with the per-price draw made explicit as `draw p`. -/
def asks (draw : ℕ → ℕ) : List ℕ := prices.map (fun p => draw p * p)

/-- C9: both curves have length 99; the first bid entry is `draw(1) * 99` and
the last ask entry is `draw(99) * 99`, each lying in `[9900, 99000]` when the
per-price draws lie in `[100, 1000]`. -/
theorem depth_curve_shape (d d₂ : ℕ → ℕ)
    (h1 : 100 ≤ d 1) (h2 : d 1 ≤ 1000) (h3 : 100 ≤ d₂ 99) (h4 : d₂ 99 ≤ 1000) :
    (bids d).length = 99 ∧ (asks d₂).length = 99
      ∧ (bids d).head? = some (d 1 * 99)
      ∧ (9900 ≤ d 1 * 99 ∧ d 1 * 99 ≤ 99000)
      ∧ (asks d₂).getLast? = some (d₂ 99 * 99)
      ∧ (9900 ≤ d₂ 99 * 99 ∧ d₂ 99 * 99 ≤ 99000) := by
  refine ⟨?_, ?_, rfl, ⟨by omega, by omega⟩, ?_, ⟨by omega, by omega⟩⟩
  · simp [bids, prices]
  · simp [asks, prices]
  · rfl

/-- Witness for C9 with the constant draw 100 on bids and 1000 on asks. -/
theorem depth_curve_shape_witness :
    (100 ≤ 100 ∧ 1000 ≤ 1000) ∧
      ((bids (fun _ => 100)).length = 99 ∧ (asks (fun _ => 1000)).length = 99
        ∧ (bids (fun _ => 100)).head? = some (100 * 99)
        ∧ (9900 ≤ 100 * 99 ∧ 100 * 99 ≤ 99000)
        ∧ (asks (fun _ => 1000)).getLast? = some (1000 * 99)
        ∧ (9900 ≤ 1000 * 99 ∧ 1000 * 99 ≤ 99000)) :=
  ⟨⟨le_rfl, le_rfl⟩,
    depth_curve_shape (fun _ => 100) (fun _ => 1000)
      (by norm_num) (by norm_num) (by norm_num) (by norm_num)⟩

/-! ### Ranking assembly (src/app.py lines 71-104) -/

/-- A cell of a row dictionary: either text or a number. -/
inductive CellValue where
  | str (s : String)
  | num (q : ℚ)
deriving DecidableEq

/-- A row of `df_data`: the string-keyed dictionary built on lines 84-91. -/
abbrev Row := List (String × CellValue)

/-- The fixed market list — src/app.py lines 71-77. -/
structure Market where
  id : ℕ
  question : String
  category : String

def markets : List Market :=
  [⟨1, "Will Bitcoin exceed $100k in 2025?", "Crypto"⟩,
   ⟨2, "Will SpaceX land humans on Mars by 2030?", "Science"⟩,
   ⟨3, "Will generic AI pass the Turing Test?", "Tech"⟩,
   ⟨4, "Will US GDP grow > 2% in Q4?", "Economics"⟩,
   ⟨5, "Will Ethereum flip Bitcoin market cap?", "Crypto"⟩]

/-- One appended row — src/app.py lines 84-91. -/
def mkRow (m : Market) (metrics : DepthMetrics) (score : ℚ) : Row :=
  [("Market Question", CellValue.str m.question),
   ("Category", CellValue.str m.category),
   ("Solidity Score", CellValue.num score),
   ("Liquidity ($k)", CellValue.num (roundTo 1 metrics.liquidity_score)),
   ("Spread (%)", CellValue.num (roundTo 2 (metrics.spread * 100))),
   ("Volatility", CellValue.num (roundTo 3 metrics.volatility))]

/-- The generation loop — src/app.py lines 79-91. `draws` supplies, per
market id, the four random values the sampler consumes. -/
def df_data (draws : ℕ → ℕ × ℕ × ℚ × ℚ) : List Row :=
  markets.map (fun m =>
    let d := draws m.id
    let metrics := get_order_book_depth m.id d.1 d.2.1 d.2.2.1 d.2.2.2
    mkRow m metrics
      (calculate_solidity_score metrics.liquidity_score metrics.spread metrics.volatility))

/-- The value of a row's `"Solidity Score"` column, the sort key of line 96. -/
def rowScore (r : Row) : ℚ :=
  match r.lookup "Solidity Score" with
  | some (CellValue.num q) => q
  | _ => 0

/-- Row `a` ranks at least as high as row `b`: the descending-sort order of
`df.sort_values(by="Solidity Score", ascending=False)` — src/app.py line 96. -/
def scoreGE (a b : Row) : Prop := rowScore b ≤ rowScore a

instance : DecidableRel scoreGE :=
  fun a b => inferInstanceAs (Decidable (rowScore b ≤ rowScore a))

instance : IsTotal Row scoreGE := ⟨fun a b => le_total (rowScore b) (rowScore a)⟩

instance : IsTrans Row scoreGE := ⟨fun _ _ _ h₁ h₂ => le_trans h₂ h₁⟩

/-- The sort of src/app.py line 96: descending by solidity score, stable
(equal keys keep their generation order; the 5-row sort the source performs
is observably stable). -/
def sortRows (rows : List Row) : List Row := List.insertionSort scoreGE rows

/-- The sorted DataFrame `df` of src/app.py line 96. -/
def df (draws : ℕ → ℕ × ℕ × ℚ × ℚ) : List Row := sortRows (df_data draws)

/-- Column extraction `df[key]` of pandas: `none` models the `KeyError`
raised when any row lacks the key. -/
def dfColumn (rows : List Row) (key : String) : Option (List CellValue) :=
  rows.mapM (fun r => r.lookup key)

/-! ### Stability of the sort -/

theorem filter_orderedInsert_score (c : ℚ) (a : Row) (l : List Row) :
    (l.orderedInsert scoreGE a).filter (fun r => decide (rowScore r = c)) =
      if rowScore a = c then a :: l.filter (fun r => decide (rowScore r = c))
      else l.filter (fun r => decide (rowScore r = c)) := by
  induction l with
  | nil =>
    by_cases hc : rowScore a = c <;>
      simp [List.orderedInsert, List.filter, hc]
  | cons b t ih =>
    by_cases hab : scoreGE a b
    · by_cases hc : rowScore a = c <;>
        simp [List.orderedInsert, hab, List.filter, hc]
    · have hlt : rowScore a < rowScore b := lt_of_not_le hab
      by_cases hc : rowScore a = c
      · have hbc : rowScore b ≠ c := by
          intro hb
          rw [hb, ← hc] at hlt
          exact lt_irrefl _ hlt
        simp [List.orderedInsert, hab, List.filter, hc, hbc, ih]
      · by_cases hbc : rowScore b = c <;>
          simp [List.orderedInsert, hab, List.filter, hc, hbc, ih]

theorem filter_sortRows_score (c : ℚ) (l : List Row) :
    (sortRows l).filter (fun r => decide (rowScore r = c)) =
      l.filter (fun r => decide (rowScore r = c)) := by
  induction l with
  | nil => rfl
  | cons a t ih =>
    have ih' : (List.insertionSort scoreGE t).filter (fun r => decide (rowScore r = c))
        = t.filter (fun r => decide (rowScore r = c)) := ih
    show ((List.insertionSort scoreGE t).orderedInsert scoreGE a).filter _ = _
    rw [filter_orderedInsert_score]
    by_cases hc : rowScore a = c <;>
      simp [List.filter, hc, ih']

/-- C2: the ranking is the row list sorted non-increasingly by solidity
score; the sort is a permutation of the generated rows; rows of equal score
keep their original generation order (stability, expressed as preservation
of each equal-score fibre); and any first row of the sorted result has the
maximal score and comes from the input rows. -/
theorem ranking_invariants (rows : List Row) :
    List.Sorted scoreGE (sortRows rows)
      ∧ (sortRows rows).Perm rows
      ∧ (∀ c : ℚ, (sortRows rows).filter (fun r => decide (rowScore r = c))
          = rows.filter (fun r => decide (rowScore r = c)))
      ∧ ∀ y, (sortRows rows).head? = some y →
          y ∈ rows ∧ ∀ x ∈ rows, rowScore x ≤ rowScore y := by
  refine ⟨List.sorted_insertionSort scoreGE rows,
    List.perm_insertionSort scoreGE rows,
    fun c => filter_sortRows_score c rows, ?_⟩
  intro y hy
  have hmem : y ∈ sortRows rows := List.mem_of_mem_head? hy
  constructor
  · exact (List.perm_insertionSort scoreGE rows).subset hmem
  · intro x hx
    have hx' : x ∈ sortRows rows :=
      (List.perm_insertionSort scoreGE rows).symm.subset hx
    obtain ⟨t, ht⟩ : ∃ t, sortRows rows = y :: t := by
      cases hsr : sortRows rows with
      | nil => rw [hsr] at hy; cases hy
      | cons z t =>
        rw [hsr] at hy
        cases hy
        exact ⟨t, rfl⟩
    have hsorted : List.Sorted scoreGE (sortRows rows) :=
      List.sorted_insertionSort scoreGE rows
    rw [ht] at hsorted hx'
    rcases List.mem_cons.mp hx' with h | h
    · rw [h]
    · exact List.rel_of_sorted_cons hsorted x h

/-- Witness for C2 on a concrete two-row list with equal scores. -/
theorem ranking_invariants_witness :
    List.Sorted scoreGE
        (sortRows [[("Solidity Score", CellValue.num 7)],
          [("Solidity Score", CellValue.num 7)]])
      ∧ (sortRows [[("Solidity Score", CellValue.num 7)],
          [("Solidity Score", CellValue.num 7)]]).Perm
          [[("Solidity Score", CellValue.num 7)],
            [("Solidity Score", CellValue.num 7)]]
      ∧ (∀ c : ℚ,
          (sortRows [[("Solidity Score", CellValue.num 7)],
            [("Solidity Score", CellValue.num 7)]]).filter
              (fun r => decide (rowScore r = c))
            = [[("Solidity Score", CellValue.num 7)],
                [("Solidity Score", CellValue.num 7)]].filter
                (fun r => decide (rowScore r = c)))
      ∧ ∀ y, (sortRows [[("Solidity Score", CellValue.num 7)],
          [("Solidity Score", CellValue.num 7)]]).head? = some y →
          y ∈ [[("Solidity Score", CellValue.num 7)],
            [("Solidity Score", CellValue.num 7)]]
            ∧ ∀ x ∈ [[("Solidity Score", CellValue.num 7)],
                [("Solidity Score", CellValue.num 7)]], rowScore x ≤ rowScore y :=
  ranking_invariants
    [[("Solidity Score", CellValue.num 7)], [("Solidity Score", CellValue.num 7)]]

/-! ### The summary metrics of src/app.py lines 101-104 -/

theorem mkRow_lookup_liquidity_dollar (m : Market) (metrics : DepthMetrics) (score : ℚ) :
    (mkRow m metrics score).lookup ("Liquidity ($)") = none := rfl

theorem mkRow_lookup_liquidity_k (m : Market) (metrics : DepthMetrics) (score : ℚ) :
    (mkRow m metrics score).lookup ("Liquidity ($k)")
      = some (CellValue.num (roundTo 1 metrics.liquidity_score)) := rfl

theorem mkRow_lookup_score (m : Market) (metrics : DepthMetrics) (score : ℚ) :
    (mkRow m metrics score).lookup "Solidity Score" = some (CellValue.num score) := rfl

theorem df_data_forms (draws : ℕ → ℕ × ℕ × ℚ × ℚ) :
    ∀ r ∈ df_data draws, ∃ m metrics score, r = mkRow m metrics score := by
  intro r hr
  simp only [df_data, List.mem_map] at hr
  obtain ⟨m, _, hEq⟩ := hr
  exact ⟨m, _, _, hEq.symm⟩

theorem dfColumn_eq_none {key : String} {rows : List Row} (hne : rows ≠ [])
    (h : ∀ r ∈ rows, r.lookup key = none) : dfColumn rows key = none := by
  cases rows with
  | nil => exact absurd rfl hne
  | cons a t =>
    show (a :: t).mapM (fun r => r.lookup key) = none
    rw [List.mapM_cons, h a (List.mem_cons_self a t)]
    rfl

/-- C3: the ranking pass always produces 5 rows, and every row carries a
`"Solidity Score"` and a `"Liquidity ($k)"` column; but the third summary
metric of src/app.py line 104 reads the column `"Liquidity ($)"`, which no
row has, so extracting it raises `KeyError` (modelled as `none`) on every
run — the mean-liquidity summary is never produced and the assembly fails. -/
theorem summary_metrics_key_bug (draws : ℕ → ℕ × ℕ × ℚ × ℚ) :
    (df draws).length = 5
      ∧ (∀ r ∈ df draws, r.lookup "Solidity Score" ≠ none)
      ∧ (∀ r ∈ df draws, r.lookup ("Liquidity ($k)") ≠ none)
      ∧ (∀ r ∈ df draws, r.lookup ("Liquidity ($)") = none)
      ∧ dfColumn (df draws) ("Liquidity ($)") = none := by
  have hforms : ∀ r ∈ df draws, ∃ m metrics score, r = mkRow m metrics score := by
    intro r hr
    have hr' : r ∈ df_data draws := (List.mem_insertionSort scoreGE).mp hr
    exact df_data_forms draws r hr'
  have hlen : (df draws).length = 5 := by
    show (List.insertionSort scoreGE (df_data draws)).length = 5
    rw [List.length_insertionSort]
    simp [df_data, markets]
  have hnone : ∀ r ∈ df draws, r.lookup ("Liquidity ($)") = none := by
    intro r hr
    obtain ⟨m, metrics, score, rfl⟩ := hforms r hr
    exact mkRow_lookup_liquidity_dollar m metrics score
  refine ⟨hlen, ?_, ?_, hnone, ?_⟩
  · intro r hr
    obtain ⟨m, metrics, score, rfl⟩ := hforms r hr
    rw [mkRow_lookup_score]
    exact Option.some_ne_none _
  · intro r hr
    obtain ⟨m, metrics, score, rfl⟩ := hforms r hr
    rw [mkRow_lookup_liquidity_k]
    exact Option.some_ne_none _
  · refine dfColumn_eq_none ?_ hnone
    intro hnil
    rw [hnil] at hlen
    exact absurd hlen (by norm_num)

end SolidityScanner
